import Mathlib

/-!
Shallow embedding of the token-embedding visualization core
(`src/utils/pca.ts`, `src/config/config.ts`, and the Three.js canvas
component), together with proofs of the specified properties of the
Projector normalization, the spring-damper Motion Field, the Analogy
Solver and the analogy scene reconciliation logic.

JavaScript `number` arithmetic is modelled by exact rational arithmetic
(`ℚ`); `Math.sqrt` is modelled by `Real.sqrt` on the rational operand
cast to `ℝ`.  All state mutation in the source is modelled by explicit
state passing.
-/

namespace TokenViz

/-! ### Data model (`src/types/types.ts`) -/

/-- `ReducedEmbedding3D` from `types.ts`: a token with three display
coordinates. -/
structure ReducedEmbedding3D where
  token : String
  x : ℚ
  y : ℚ
  z : ℚ
deriving DecidableEq, Repr

/-- `TokenEmbedding` from `types.ts`: a token with its full N-dimensional
embedding vector. -/
structure TokenEmbedding where
  token : String
  embedding : List ℚ
deriving DecidableEq, Repr

/-- `THREE.Vector3` as used by the canvas component (componentwise
rational arithmetic). -/
structure Vec3 where
  x : ℚ
  y : ℚ
  z : ℚ
deriving DecidableEq, Repr

namespace Vec3

/-- `THREE.Vector3.subVectors` / `.sub`. -/
def sub (a b : Vec3) : Vec3 := ⟨a.x - b.x, a.y - b.y, a.z - b.z⟩

/-- `THREE.Vector3.add`. -/
def add (a b : Vec3) : Vec3 := ⟨a.x + b.x, a.y + b.y, a.z + b.z⟩

/-- `THREE.Vector3.multiplyScalar`. -/
def smul (c : ℚ) (v : Vec3) : Vec3 := ⟨c * v.x, c * v.y, c * v.z⟩

/-- Squared Euclidean length of a vector (the operand of the square root
in `THREE.Vector3.length`). -/
def normSq (v : Vec3) : ℚ := v.x ^ 2 + v.y ^ 2 + v.z ^ 2

/-- `THREE.Vector3.length`: `Math.sqrt` modelled by `Real.sqrt` of the
exact rational squared length. -/
noncomputable def lengthR (v : Vec3) : ℝ := Real.sqrt ((normSq v : ℚ) : ℝ)

end Vec3

/-- Squared Euclidean distance between two points of display space. -/
def distSq (a b : Vec3) : ℚ := Vec3.normSq (a.sub b)

/-- `THREE.Vector3.distanceTo`: Euclidean distance in display space. -/
noncomputable def distR (a b : Vec3) : ℝ := Real.sqrt ((distSq a b : ℚ) : ℝ)

/-- A `THREE.Vector3` whose components are real numbers; the type of the
question-mark tip position, which involves a square root. -/
structure Vec3R where
  x : ℝ
  y : ℝ
  z : ℝ

namespace Vec3R

/-- Componentwise addition on real vectors. -/
def add (a b : Vec3R) : Vec3R := ⟨a.x + b.x, a.y + b.y, a.z + b.z⟩

/-- Componentwise scalar multiplication on real vectors. -/
def smul (c : ℝ) (v : Vec3R) : Vec3R := ⟨c * v.x, c * v.y, c * v.z⟩

end Vec3R

/-- Cast of a rational display-space vector into real coordinates. -/
def Vec3.toR (v : Vec3) : Vec3R := ⟨(v.x : ℝ), (v.y : ℝ), (v.z : ℝ)⟩

/-! ### Configuration constants (`src/config/config.ts`, `animation` and
`scales` blocks) -/

/-- `animation.springK` — spring stiffness. -/
def springK : ℚ := 120

/-- `animation.damping` — damping coefficient (underdamped, `< 2·√k`). -/
def damping : ℚ := 12

/-- `animation.dt` — fixed physics time step. -/
def dt : ℚ := 1 / 60

/-- `resultCount` — number of nearest tokens reported per analogy. -/
def resultCount : Nat := 5

/-- `scales.pointCloud` — normalization scale for the point cloud. -/
def pointCloudScale : ℚ := 10

/-- `scales.byDimension` with the `?? 1.0` fallback used at the call
sites: scale multiplier for each dimension view. -/
def scaleByDimension (d : Nat) : ℚ :=
  if d = 1 then 1 / 2 else if d = 2 then 3 / 4 else 1

/-! ### Projector normalization (`normalize3D` in `src/utils/pca.ts`) -/

/-- `Math.min(...xs)` over a nonempty list (the empty case is never
reached because `normalize3D` returns early on an empty input). -/
def listMin : List ℚ → ℚ
  | [] => 0
  | a :: l => l.foldl min a

/-- `Math.max(...xs)` over a nonempty list. -/
def listMax : List ℚ → ℚ
  | [] => 0
  | a :: l => l.foldl max a

/-- `normalize3D(points, scale)` from `src/utils/pca.ts`: per axis,
compute min/max over all points; if the axis has positive range, remap
affinely (min ↦ `-scale/2`, max ↦ `scale/2`); otherwise leave the axis
value unchanged. -/
def normalize3D (points : List ReducedEmbedding3D) (scale : ℚ) :
    List ReducedEmbedding3D :=
  if points.length = 0 then []
  else
    let xs := points.map (·.x)
    let ys := points.map (·.y)
    let zs := points.map (·.z)
    let minX := listMin xs
    let maxX := listMax xs
    let minY := listMin ys
    let maxY := listMax ys
    let minZ := listMin zs
    let maxZ := listMax zs
    let rangeX := maxX - minX
    let rangeY := maxY - minY
    let rangeZ := maxZ - minZ
    let hasXVariance := 0 < rangeX
    let hasYVariance := 0 < rangeY
    let hasZVariance := 0 < rangeZ
    points.map fun point =>
      { token := point.token
        x := if hasXVariance then ((point.x - minX) / rangeX - 1/2) * scale else point.x
        y := if hasYVariance then ((point.y - minY) / rangeY - 1/2) * scale else point.y
        z := if hasZVariance then ((point.z - minZ) / rangeZ - 1/2) * scale else point.z }

/-! ### Motion Field (`PointState` and the spring physics in the canvas
component) -/

/-- `PointState` (the spec's MotionState): one spring-damper state per
token, keyed by the token's index in the point list. -/
structure PointState where
  current : Vec3
  velocity : Vec3
  target : Vec3
  currentScale : ℚ
  scaleVelocity : ℚ
  targetScale : ℚ
deriving DecidableEq, Repr

/-- The body of `updateSpringPhysics` for one `PointState`: semi-implicit
Euler integration of the spring-damper for the position triple and,
identically, for the scalar scale triple.  The in-place `THREE.Vector3`
mutations of the source are modelled by the `let` chain. -/
def updateSpringPhysics (state : PointState) : PointState :=
  let displacement := state.current.sub state.target
  let springForce := displacement.smul (-springK)
  let dampingForce := state.velocity.smul (-damping)
  let totalForce := springForce.add dampingForce
  let velocity' := state.velocity.add (totalForce.smul dt)
  let current' := state.current.add (velocity'.smul dt)
  let scaleDisplacement := state.currentScale - state.targetScale
  let scaleSpringForce := -springK * scaleDisplacement
  let scaleDampingForce := -damping * state.scaleVelocity
  let scaleTotalForce := scaleSpringForce + scaleDampingForce
  let scaleVelocity' := state.scaleVelocity + scaleTotalForce * dt
  let currentScale' := state.currentScale + scaleVelocity' * dt
  { state with
      current := current'
      velocity := velocity'
      currentScale := currentScale'
      scaleVelocity := scaleVelocity' }

/-- `initializePoints` (state-creation part): one fresh `PointState` per
normalized point, with `current = target` and zero velocities. -/
def initializePoints (points : List ReducedEmbedding3D) (dimensions : Nat) :
    List PointState :=
  let normalizedPoints := normalize3D points pointCloudScale
  let initialScale := scaleByDimension dimensions
  normalizedPoints.map fun point =>
    { current := ⟨point.x, point.y, point.z⟩
      velocity := ⟨0, 0, 0⟩
      target := ⟨point.x, point.y, point.z⟩
      currentScale := initialScale
      scaleVelocity := 0
      targetScale := initialScale }

/-- `updateTargets`: recompute the normalized points and write the
`target`/`targetScale` fields of each existing state whose index has a
normalized point (`if (pointStates[i])` guard mirrored by `mapIdx` and
the `[i]?` lookup). -/
def updateTargets (pointStates : List PointState)
    (points : List ReducedEmbedding3D) (dimensions : Nat) : List PointState :=
  let normalizedPoints := normalize3D points pointCloudScale
  let targetScale := scaleByDimension dimensions
  pointStates.mapIdx fun i state =>
    match normalizedPoints[i]? with
    | some point =>
        { state with target := ⟨point.x, point.y, point.z⟩, targetScale := targetScale }
    | none => state

/-- The `watch(() => props.points)` handler of the canvas component in a
reduced (non-full) projection mode: on an empty point list do nothing;
otherwise update targets when states already exist, else create them. -/
def onPointsChanged (pointStates : List PointState)
    (points : List ReducedEmbedding3D) (dimensions : Nat) : List PointState :=
  if points.length = 0 then pointStates
  else if 0 < pointStates.length then updateTargets pointStates points dimensions
  else initializePoints points dimensions

/-! ### Analogy Solver -/

/-- `AnalogyConfig` from `src/config/config.ts` (`from` is a Lean keyword,
so the field is `from_`). -/
structure AnalogyConfig where
  from_ : String
  to_ : String
  apply : String
  color : String
deriving DecidableEq, Repr

/-- One `{ token, distance }` record of the distance lists built by the
nearest-token helpers; the distance carries the `Math.sqrt`. -/
structure TokenDistance where
  token : String
  distance : ℝ

/-- `distances.sort((a, b) => a.distance - b.distance)`: ascending,
stable sort by distance (`Array.prototype.sort` is stable, as is
`List.mergeSort`). -/
noncomputable def sortByDistance (l : List TokenDistance) : List TokenDistance :=
  l.mergeSort fun a b => decide (a.distance ≤ b.distance)

/-- The token attached to index `i` of the distance list:
`props.points[i]?.token || '?'` (a missing entry or an empty-string token
falls back to `"?"`). -/
def tokenAt (points : List ReducedEmbedding3D) (i : Nat) : String :=
  match points[i]? with
  | some p => if p.token = "" then "?" else p.token
  | none => "?"

/-- `position.distanceTo(state.current)` where `position` is a computed
(real-valued) point and `state.current` a stored rational one. -/
noncomputable def distToR (position : Vec3R) (b : Vec3) : ℝ :=
  Real.sqrt ((position.x - (b.x : ℝ)) ^ 2 + (position.y - (b.y : ℝ)) ^ 2 +
    (position.z - (b.z : ℝ)) ^ 2)

/-- `findNearestTokensWithDistances(position, count)` from the canvas
component: distance from `position` to every state's current animated
position, sorted ascending, first `count` kept. -/
noncomputable def findNearestTokensWithDistances (pointStates : List PointState)
    (points : List ReducedEmbedding3D) (position : Vec3R) (count : Nat) :
    List TokenDistance :=
  let distances := pointStates.mapIdx fun i state =>
    { token := tokenAt points i, distance := distToR position state.current : TokenDistance }
  (sortByDistance distances).take count

/-- The 50-D squared-distance accumulation loop of
`findNearestTokensFullEmbedding`: indices run over the target vector's
length, missing coordinates read as `0`. -/
def sumSqDiff (target emb : List ℚ) : ℚ :=
  (List.range target.length).foldl
    (fun sum i => sum + (target.getD i 0 - emb.getD i 0) ^ 2) 0

/-- The `{ token, distance }` list built by
`findNearestTokensFullEmbedding` before sorting. -/
noncomputable def fullEmbeddingDistances (originalEmbeddings : List TokenEmbedding)
    (targetEmbedding : List ℚ) : List TokenDistance :=
  originalEmbeddings.map fun e =>
    { token := e.token
      distance := Real.sqrt ((sumSqDiff targetEmbedding e.embedding : ℚ) : ℝ) }

/-- `findNearestTokensFullEmbedding(targetEmbedding, count)`: Euclidean
distance in full embedding space to every stored embedding, sorted
ascending, first `count` tokens returned. -/
noncomputable def findNearestTokensFullEmbedding
    (originalEmbeddings : List TokenEmbedding) (targetEmbedding : List ℚ)
    (count : Nat) : List String :=
  ((sortByDistance (fullEmbeddingDistances originalEmbeddings targetEmbedding)).take
    count).map (·.token)

/-- The `resultEmbedding` loop of `computeFullEmbeddingAnalogies`:
`result[i] = apply[i] + (to[i] - from[i])` for `i` below the apply
vector's length, missing coordinates reading as `0`. -/
def analogyTargetEmbedding (applyEmb toEmb fromEmb : List ℚ) : List ℚ :=
  (List.range applyEmb.length).map fun i =>
    applyEmb.getD i 0 + (toEmb.getD i 0 - fromEmb.getD i 0)

/-- One legend entry (`analogyResults` element): the solver's displayed
result.  The full-embedding mode stores no distances; the reduced mode's
distances are the sphere radii, listed here explicitly. -/
structure AnalogyResult where
  from_ : String
  to_ : String
  apply : String
  results : List String
  distances : List ℝ
  color : String

/-- The body of `computeFullEmbeddingAnalogies` for one analogy: look the
three tokens up in the embedding store; if any is missing return the
degenerate placeholder result, otherwise compute the analogy target
vector and its nearest tokens.  (The full-embedding mode never attaches
distances to the displayed result.) -/
noncomputable def computeFullEmbeddingAnalogy
    (originalEmbeddings : List TokenEmbedding) (analogy : AnalogyConfig) :
    AnalogyResult :=
  let fromEmb := originalEmbeddings.find? fun e => e.token = analogy.from_
  let toEmb := originalEmbeddings.find? fun e => e.token = analogy.to_
  let applyEmb := originalEmbeddings.find? fun e => e.token = analogy.apply
  match fromEmb, toEmb, applyEmb with
  | some fe, some te, some ae =>
      { from_ := analogy.from_
        to_ := analogy.to_
        apply := analogy.apply
        results := findNearestTokensFullEmbedding originalEmbeddings
          (analogyTargetEmbedding ae.embedding te.embedding fe.embedding) resultCount
        distances := []
        color := analogy.color }
  | _, _, _ =>
      { from_ := analogy.from_
        to_ := analogy.to_
        apply := analogy.apply
        results := ["?"]
        distances := []
        color := analogy.color }

/-- `computeFullEmbeddingAnalogies`: the loop over `props.analogies`. -/
noncomputable def computeFullEmbeddingAnalogies
    (originalEmbeddings : List TokenEmbedding) (analogies : List AnalogyConfig) :
    List AnalogyResult :=
  analogies.map (computeFullEmbeddingAnalogy originalEmbeddings)

/-- `normalizedPoints.findIndex(p => p.token === analogy.xxx)` with the
JavaScript `-1` convention for a missing token. -/
def findIndexJs (token : String) (points : List ReducedEmbedding3D) : Int :=
  match points.findIdx? fun p => p.token = token with
  | some i => (i : Int)
  | none => -1

/-- The question-mark / sphere anchor position computed every frame in
`animate`: `tipPos = applyPos + normalize(toPos - fromPos) * length`.
`THREE.Vector3.normalize` divides by `length() || 1`, so a zero-length
difference divides by `1`. -/
noncomputable def questionMarkTipPos (applyPos toPos fromPos : Vec3) : Vec3R :=
  let difference := toPos.sub fromPos
  let length := difference.lengthR
  let normalized := Vec3R.smul (1 / (if length = 0 then 1 else length)) difference.toR
  Vec3R.add applyPos.toR (Vec3R.smul length normalized)

/-- The per-frame legend entry computed by `animate` for one analogy in
reduced mode: the degenerate placeholder when any configured token was
not found in the point list (index `-1`); `none` when an index is out of
range of the state array (the source pushes nothing in that case);
otherwise the `resultCount` nearest tokens to the analogy tip, with the
distances the spheres are scaled by. -/
noncomputable def animateAnalogyResult (pointStates : List PointState)
    (points : List ReducedEmbedding3D) (analogy : AnalogyConfig) :
    Option AnalogyResult :=
  let normalizedPoints := normalize3D points pointCloudScale
  let fromIndex := findIndexJs analogy.from_ normalizedPoints
  let toIndex := findIndexJs analogy.to_ normalizedPoints
  let applyIndex := findIndexJs analogy.apply normalizedPoints
  if fromIndex = -1 ∨ toIndex = -1 ∨ applyIndex = -1 then
    some
      { from_ := analogy.from_
        to_ := analogy.to_
        apply := analogy.apply
        results := ["?"]
        distances := []
        color := analogy.color }
  else
    match pointStates[fromIndex.toNat]?, pointStates[toIndex.toNat]?,
        pointStates[applyIndex.toNat]? with
    | some fromState, some toState, some applyState =>
        let tip := questionMarkTipPos applyState.current toState.current
          fromState.current
        let nearestWithDistances :=
          findNearestTokensWithDistances pointStates points tip resultCount
        some
          { from_ := analogy.from_
            to_ := analogy.to_
            apply := analogy.apply
            results := nearestWithDistances.map (·.token)
            distances := nearestWithDistances.map (·.distance)
            color := analogy.color }
    | _, _, _ => none

/-! ### Analogy Scene Reconciler (`analogyStates`, `initializeAnalogies`,
`cleanupAnalogies` and the `watch(() => props.analogies)` handler)

Scene objects (`THREE.Group` arrows, sphere meshes, question-mark
sprites) are modelled by allocation identifiers: each object creation
draws a fresh `Nat` from a counter, so two objects are "the same object"
(reference-equal) exactly when they carry the same identifier.  The
rendering payload of the objects (geometry, materials) belongs to the
external renderer and is out of the modelled core. -/

/-- `AnalogyState` from the canvas component: the three resolved token
indices and the handles of the scene objects owned by one analogy. -/
structure AnalogyState where
  fromIndex : Int
  toIndex : Int
  applyIndex : Int
  fromToArrow : Option Nat
  applyArrow : Option Nat
  questionMark : Option Nat
  spheres : List Nat
deriving DecidableEq, Repr

/-- The body of the `analogyStates = props.analogies.map(...)` loop in
`initializeAnalogies`, for one analogy: resolve the three indices; if any
is `-1` own no scene objects; otherwise create, in source order, the
from→to arrow, the apply arrow, `resultCount` spheres and the question
mark, drawing fresh identifiers from the counter. -/
def initAnalogyState (normalizedPoints : List ReducedEmbedding3D)
    (analogy : AnalogyConfig) (nextId : Nat) : AnalogyState × Nat :=
  let fromIndex := findIndexJs analogy.from_ normalizedPoints
  let toIndex := findIndexJs analogy.to_ normalizedPoints
  let applyIndex := findIndexJs analogy.apply normalizedPoints
  if fromIndex = -1 ∨ toIndex = -1 ∨ applyIndex = -1 then
    (⟨fromIndex, toIndex, applyIndex, none, none, none, []⟩, nextId)
  else
    (⟨fromIndex, toIndex, applyIndex,
      some nextId, some (nextId + 1),
      some (nextId + 2 + resultCount),
      (List.range resultCount).map (nextId + 2 + ·)⟩,
      nextId + 3 + resultCount)

/-- `initializeAnalogies`: map the analogy list to fresh runtime states,
threading the allocation counter. -/
def initializeAnalogies (analogies : List AnalogyConfig)
    (points : List ReducedEmbedding3D) (nextId : Nat) :
    List AnalogyState × Nat :=
  let normalizedPoints := normalize3D points pointCloudScale
  analogies.foldl
    (fun acc analogy =>
      let (state, n) := initAnalogyState normalizedPoints analogy acc.2
      (acc.1 ++ [state], n))
    ([], nextId)

/-- `cleanupAnalogies`: remove every owned scene object and clear the
state list. -/
def cleanupAnalogies (_analogyStates : List AnalogyState) : List AnalogyState :=
  []

/-- The `watch(() => props.analogies, ...)` handler in a reduced mode
with points present: `cleanupAnalogies()` followed by
`initializeAnalogies()` — every entity of every analogy is torn down and
recreated from fresh allocations. -/
def onAnalogiesChanged (analogyStates : List AnalogyState)
    (analogies : List AnalogyConfig) (points : List ReducedEmbedding3D)
    (nextId : Nat) : List AnalogyState × Nat :=
  let _ := cleanupAnalogies analogyStates
  initializeAnalogies analogies points nextId

/-! ### Helper lemmas about the min/max folds -/

lemma foldl_min_le (l : List ℚ) (a : ℚ) : l.foldl min a ≤ a := by
  induction l generalizing a with
  | nil => exact le_refl a
  | cons b t ih => exact le_trans (ih (min a b)) (min_le_left a b)

lemma foldl_min_le_of_mem {l : List ℚ} {b : ℚ} (h : b ∈ l) (a : ℚ) :
    l.foldl min a ≤ b := by
  induction l generalizing a with
  | nil => cases h
  | cons c t ih =>
    rcases List.mem_cons.mp h with rfl | h
    · exact le_trans (foldl_min_le t (min a b)) (min_le_right a b)
    · exact ih h (min a c)

lemma le_foldl_max (l : List ℚ) (a : ℚ) : a ≤ l.foldl max a := by
  induction l generalizing a with
  | nil => exact le_refl a
  | cons b t ih => exact le_trans (le_max_left a b) (ih (max a b))

lemma le_foldl_max_of_mem {l : List ℚ} {b : ℚ} (h : b ∈ l) (a : ℚ) :
    b ≤ l.foldl max a := by
  induction l generalizing a with
  | nil => cases h
  | cons c t ih =>
    rcases List.mem_cons.mp h with rfl | h
    · exact le_trans (le_max_right a b) (le_foldl_max t (max a b))
    · exact ih h (max a c)

lemma listMin_le {l : List ℚ} {b : ℚ} (h : b ∈ l) : listMin l ≤ b := by
  cases l with
  | nil => cases h
  | cons a t =>
    rcases List.mem_cons.mp h with rfl | h
    · exact foldl_min_le t b
    · exact foldl_min_le_of_mem h a

lemma le_listMax {l : List ℚ} {b : ℚ} (h : b ∈ l) : b ≤ listMax l := by
  cases l with
  | nil => cases h
  | cons a t =>
    rcases List.mem_cons.mp h with rfl | h
    · exact le_foldl_max t b
    · exact le_foldl_max_of_mem h a

/-- The tokens of `normalize3D`'s output, in order, are those of its
input. -/
lemma normalize3D_map_token (points : List ReducedEmbedding3D) (scale : ℚ) :
    (normalize3D points scale).map (·.token) = points.map (·.token) := by
  by_cases h : points.length = 0
  · rw [List.length_eq_zero] at h
    subst h
    rfl
  · simp only [normalize3D, if_neg h, List.map_map]
    rfl

/-- Scalar core of the normalization claim: behaviour of one axis value
under the affine remap, depending on whether the axis has variance. -/
lemma axisValue_spec (m M v scale : ℚ) (hs : 0 ≤ scale) (hmv : m ≤ v)
    (hvM : v ≤ M) :
    (0 < M - m →
      (-(scale / 2) ≤ (if 0 < M - m then ((v - m) / (M - m) - 1/2) * scale else v) ∧
        (if 0 < M - m then ((v - m) / (M - m) - 1/2) * scale else v) ≤ scale / 2) ∧
      (v = m → (if 0 < M - m then ((v - m) / (M - m) - 1/2) * scale else v) = -(scale / 2)) ∧
      (v = M → (if 0 < M - m then ((v - m) / (M - m) - 1/2) * scale else v) = scale / 2)) ∧
    (M - m = 0 → (if 0 < M - m then ((v - m) / (M - m) - 1/2) * scale else v) = v) := by
  constructor
  · intro h
    rw [if_pos h]
    have t0 : 0 ≤ (v - m) / (M - m) := div_nonneg (by linarith) (le_of_lt h)
    have t1 : (v - m) / (M - m) ≤ 1 := (div_le_one h).mpr (by linarith)
    refine ⟨⟨?_, ?_⟩, ?_, ?_⟩
    · nlinarith [mul_nonneg t0 hs]
    · nlinarith [mul_nonneg (by linarith : (0:ℚ) ≤ 1 - (v - m) / (M - m)) hs]
    · intro hv
      subst hv
      rw [sub_self, zero_div]
      ring
    · intro hv
      subst hv
      rw [div_self (ne_of_gt h)]
      ring
  · intro h
    rw [if_neg]
    rw [h]
    exact lt_irrefl 0

/-- Claim C10: `normalize3D` returns a list of the same length and order
as its input, with the same token at every index; only the coordinates
may change.  (In the embedding `normalize3D` is a pure function of its
argument, so the input list itself is unchanged, as the claim's
no-mutation clause requires.) -/
theorem normalize3D_preserves_tokens_and_length
    (points : List ReducedEmbedding3D) (scale : ℚ) :
    (normalize3D points scale).length = points.length ∧
    ∀ i : Nat, ((normalize3D points scale)[i]?).map (·.token) =
      (points[i]?).map (·.token) := by
  have h := normalize3D_map_token points scale
  constructor
  · have := congrArg List.length h
    simpa using this
  · intro i
    have := congrArg (fun l => l[i]?) h
    simpa [List.getElem?_map] using this

/-- Claim C8: for a nonempty point list and nonnegative scale `S`,
normalization maps every coordinate of an axis with positive min–max
range into `[-S/2, S/2]`, sending the axis minimum to `-S/2` and the
axis maximum to `S/2`, and leaves coordinates of a zero-range axis
unchanged. -/
theorem normalization_range_mapping (points : List ReducedEmbedding3D)
    (scale : ℚ) (hne : points ≠ []) (hs : 0 ≤ scale) :
    ∀ (i : Nat) (p : ReducedEmbedding3D), points[i]? = some p →
      ∃ q : ReducedEmbedding3D, (normalize3D points scale)[i]? = some q ∧
        ((0 < listMax (points.map (·.x)) - listMin (points.map (·.x)) →
            (-(scale / 2) ≤ q.x ∧ q.x ≤ scale / 2) ∧
            (p.x = listMin (points.map (·.x)) → q.x = -(scale / 2)) ∧
            (p.x = listMax (points.map (·.x)) → q.x = scale / 2)) ∧
          (listMax (points.map (·.x)) - listMin (points.map (·.x)) = 0 →
            q.x = p.x)) ∧
        ((0 < listMax (points.map (·.y)) - listMin (points.map (·.y)) →
            (-(scale / 2) ≤ q.y ∧ q.y ≤ scale / 2) ∧
            (p.y = listMin (points.map (·.y)) → q.y = -(scale / 2)) ∧
            (p.y = listMax (points.map (·.y)) → q.y = scale / 2)) ∧
          (listMax (points.map (·.y)) - listMin (points.map (·.y)) = 0 →
            q.y = p.y)) ∧
        ((0 < listMax (points.map (·.z)) - listMin (points.map (·.z)) →
            (-(scale / 2) ≤ q.z ∧ q.z ≤ scale / 2) ∧
            (p.z = listMin (points.map (·.z)) → q.z = -(scale / 2)) ∧
            (p.z = listMax (points.map (·.z)) → q.z = scale / 2)) ∧
          (listMax (points.map (·.z)) - listMin (points.map (·.z)) = 0 →
            q.z = p.z)) := by
  intro i p hp
  have hlen : ¬ points.length = 0 := by
    simpa [List.length_eq_zero] using hne
  have hmem : p ∈ points := by
    rw [List.getElem?_eq_some_iff] at hp
    obtain ⟨h1, h2⟩ := hp
    exact h2 ▸ List.getElem_mem h1
  have hxm : listMin (points.map (·.x)) ≤ p.x :=
    listMin_le (List.mem_map_of_mem _ hmem)
  have hxM : p.x ≤ listMax (points.map (·.x)) :=
    le_listMax (List.mem_map_of_mem _ hmem)
  have hym : listMin (points.map (·.y)) ≤ p.y :=
    listMin_le (List.mem_map_of_mem _ hmem)
  have hyM : p.y ≤ listMax (points.map (·.y)) :=
    le_listMax (List.mem_map_of_mem _ hmem)
  have hzm : listMin (points.map (·.z)) ≤ p.z :=
    listMin_le (List.mem_map_of_mem _ hmem)
  have hzM : p.z ≤ listMax (points.map (·.z)) :=
    le_listMax (List.mem_map_of_mem _ hmem)
  have hq : (normalize3D points scale)[i]? = some
      { token := p.token
        x := if 0 < listMax (points.map (·.x)) - listMin (points.map (·.x)) then
            ((p.x - listMin (points.map (·.x))) /
              (listMax (points.map (·.x)) - listMin (points.map (·.x))) - 1/2) * scale
          else p.x
        y := if 0 < listMax (points.map (·.y)) - listMin (points.map (·.y)) then
            ((p.y - listMin (points.map (·.y))) /
              (listMax (points.map (·.y)) - listMin (points.map (·.y))) - 1/2) * scale
          else p.y
        z := if 0 < listMax (points.map (·.z)) - listMin (points.map (·.z)) then
            ((p.z - listMin (points.map (·.z))) /
              (listMax (points.map (·.z)) - listMin (points.map (·.z))) - 1/2) * scale
          else p.z } := by
    simp only [normalize3D, if_neg hlen, List.getElem?_map, hp, Option.map_some']
  refine ⟨_, hq, ?_, ?_, ?_⟩
  · exact axisValue_spec _ _ _ scale hs hxm hxM
  · exact axisValue_spec _ _ _ scale hs hym hyM
  · exact axisValue_spec _ _ _ scale hs hzm hzM

/-- Witness for C8 at a concrete two-point list with `scale = 10`:
instantiating the theorem shows the first point (the minimum on the x
axis) is sent to x-coordinate `-5`. -/
theorem normalization_range_mapping_witness :
    ∃ q, (normalize3D [⟨"a", 0, 0, 0⟩, ⟨"b", 1, 2, 3⟩] 10)[0]? = some q ∧
      q.x = (-5 : ℚ) := by
  obtain ⟨q, hq, hx, _, _⟩ :=
    normalization_range_mapping [⟨"a", 0, 0, 0⟩, ⟨"b", 1, 2, 3⟩] 10
      (by simp) (by norm_num) 0 ⟨"a", 0, 0, 0⟩ rfl
  refine ⟨q, hq, ?_⟩
  have h := (hx.1 (by norm_num [listMax, listMin])).2.1 (by simp [listMin])
  rw [h]
  norm_num

/-- Claim C4: one physics tick updates velocity by
`velocity += (−k·(current−target) − c·velocity)·dt` and then position by
`current += velocity·dt` using the already-updated velocity, with the
fixed constants `k = 120`, `c = 12`, `dt = 1/60`; the identical scalar
update is applied to the `currentScale`/`scaleVelocity`/`targetScale`
triple. -/
theorem spring_physics_step_equations (state : PointState) :
    springK = 120 ∧ damping = 12 ∧ dt = 1 / 60 ∧
    (updateSpringPhysics state).velocity.x =
      state.velocity.x +
        (-(120 : ℚ) * (state.current.x - state.target.x) - 12 * state.velocity.x) * (1 / 60) ∧
    (updateSpringPhysics state).velocity.y =
      state.velocity.y +
        (-(120 : ℚ) * (state.current.y - state.target.y) - 12 * state.velocity.y) * (1 / 60) ∧
    (updateSpringPhysics state).velocity.z =
      state.velocity.z +
        (-(120 : ℚ) * (state.current.z - state.target.z) - 12 * state.velocity.z) * (1 / 60) ∧
    (updateSpringPhysics state).current.x =
      state.current.x + (updateSpringPhysics state).velocity.x * (1 / 60) ∧
    (updateSpringPhysics state).current.y =
      state.current.y + (updateSpringPhysics state).velocity.y * (1 / 60) ∧
    (updateSpringPhysics state).current.z =
      state.current.z + (updateSpringPhysics state).velocity.z * (1 / 60) ∧
    (updateSpringPhysics state).scaleVelocity =
      state.scaleVelocity +
        (-(120 : ℚ) * (state.currentScale - state.targetScale) - 12 * state.scaleVelocity) * (1 / 60) ∧
    (updateSpringPhysics state).currentScale =
      state.currentScale + (updateSpringPhysics state).scaleVelocity * (1 / 60) ∧
    (updateSpringPhysics state).target = state.target ∧
    (updateSpringPhysics state).targetScale = state.targetScale := by
  refine ⟨rfl, rfl, rfl, ?_, ?_, ?_, ?_, ?_, ?_, ?_, ?_, rfl, rfl⟩ <;>
    simp only [updateSpringPhysics, Vec3.sub, Vec3.add, Vec3.smul, springK,
      damping, dt] <;> ring

/-- Claim C5: the target-update operation writes only the
`target`/`targetScale` fields: at every index, `current`, `velocity`,
`currentScale` and `scaleVelocity` are unchanged, the state count is
unchanged, and where a normalized point exists the `target` is set to it
and `targetScale` to the dimension's scale. -/
theorem update_targets_writes_only_target_fields
    (pointStates : List PointState) (points : List ReducedEmbedding3D)
    (dimensions : Nat) :
    (updateTargets pointStates points dimensions).length = pointStates.length ∧
    ∀ i : Nat,
      ((updateTargets pointStates points dimensions)[i]?).map (·.current) =
        (pointStates[i]?).map (·.current) ∧
      ((updateTargets pointStates points dimensions)[i]?).map (·.velocity) =
        (pointStates[i]?).map (·.velocity) ∧
      ((updateTargets pointStates points dimensions)[i]?).map (·.currentScale) =
        (pointStates[i]?).map (·.currentScale) ∧
      ((updateTargets pointStates points dimensions)[i]?).map (·.scaleVelocity) =
        (pointStates[i]?).map (·.scaleVelocity) ∧
      ∀ p : ReducedEmbedding3D, (normalize3D points pointCloudScale)[i]? = some p →
        ((updateTargets pointStates points dimensions)[i]?).map (·.target) =
          (pointStates[i]?).map (fun _ => (⟨p.x, p.y, p.z⟩ : Vec3)) ∧
        ((updateTargets pointStates points dimensions)[i]?).map (·.targetScale) =
          (pointStates[i]?).map (fun _ => scaleByDimension dimensions) := by
  constructor
  · simp [updateTargets]
  · intro i
    simp only [updateTargets, List.getElem?_mapIdx]
    cases hs : pointStates[i]? with
    | none => simp
    | some s =>
      cases hn : (normalize3D points pointCloudScale)[i]? with
      | none => simp [hn]
      | some p =>
        simp only [hn, Option.map_some']
        refine ⟨trivial, trivial, trivial, trivial, ?_⟩
        intro p' hp'
        injection hp' with hpp
        subst hpp
        exact ⟨rfl, trivial⟩

/-- Witness for C5 at a one-state, one-point input: the current position
survives the update and the target is rewritten to the normalized
point. -/
theorem update_targets_writes_only_target_fields_witness :
    ((updateTargets [⟨⟨0, 0, 0⟩, ⟨0, 0, 0⟩, ⟨0, 0, 0⟩, 1, 0, 1⟩]
        [⟨"a", 1, 2, 3⟩] 2)[0]?).map (·.current) = some ⟨0, 0, 0⟩ ∧
    ((updateTargets [⟨⟨0, 0, 0⟩, ⟨0, 0, 0⟩, ⟨0, 0, 0⟩, 1, 0, 1⟩]
        [⟨"a", 1, 2, 3⟩] 2)[0]?).map (·.target) = some ⟨1, 2, 3⟩ := by
  obtain ⟨hc, -, -, -, ht⟩ :=
    (update_targets_writes_only_target_fields
      [⟨⟨0, 0, 0⟩, ⟨0, 0, 0⟩, ⟨0, 0, 0⟩, 1, 0, 1⟩] [⟨"a", 1, 2, 3⟩] 2).2 0
  constructor
  · rw [hc]; rfl
  · have h := (ht ⟨"a", 1, 2, 3⟩ (by simp [normalize3D, listMin, listMax])).1
    rw [h]; rfl

/-- Counterexample to claim C6: starting from one `PointState` (token
set `{a}`), changing the point list to the two tokens `{a, b}` leaves a
single state — the watch handler only updates targets and creates no
state for the new token, so there is not one `PointState` per token. -/
theorem token_set_change_counterexample :
    (onPointsChanged (initializePoints [⟨"a", 0, 0, 0⟩] 3)
        [⟨"a", 0, 0, 0⟩, ⟨"b", 1, 1, 1⟩] 3).length ≠
      ([⟨"a", 0, 0, 0⟩, ⟨"b", 1, 1, 1⟩] : List ReducedEmbedding3D).length := by
  have h : (onPointsChanged (initializePoints [⟨"a", 0, 0, 0⟩] 3)
      [⟨"a", 0, 0, 0⟩, ⟨"b", 1, 1, 1⟩] 3).length = 1 := by
    simp [onPointsChanged, initializePoints, updateTargets, normalize3D,
      listMin, listMax]
  rw [h]
  simp

/-- Claim C6 as amended: when the point list changes while states exist
(and neither is empty), the watch handler performs exactly the
target-only update — no `PointState` is created or destroyed, so the
state count stays at the old token count regardless of the new one. -/
theorem token_set_change_updates_targets_only
    (pointStates : List PointState) (points : List ReducedEmbedding3D)
    (dimensions : Nat) (hst : pointStates ≠ []) (hpts : points ≠ []) :
    onPointsChanged pointStates points dimensions =
      updateTargets pointStates points dimensions ∧
    (onPointsChanged pointStates points dimensions).length =
      pointStates.length := by
  have h1 : ¬ points.length = 0 := by
    simpa [List.length_eq_zero] using hpts
  have h2 : 0 < pointStates.length := List.length_pos.mpr hst
  refine ⟨?_, ?_⟩
  · simp [onPointsChanged, hpts, h2]
  · simp [onPointsChanged, hpts, h2, updateTargets]

/-- Witness for the amended C6 at the counterexample's input. -/
theorem token_set_change_updates_targets_only_witness :
    (onPointsChanged (initializePoints [⟨"a", 0, 0, 0⟩] 3)
        [⟨"a", 0, 0, 0⟩, ⟨"b", 1, 1, 1⟩] 3).length =
      (initializePoints [⟨"a", 0, 0, 0⟩] 3).length :=
  (token_set_change_updates_targets_only
    (initializePoints [⟨"a", 0, 0, 0⟩] 3)
    [⟨"a", 0, 0, 0⟩, ⟨"b", 1, 1, 1⟩] 3
    (by simp [initializePoints, normalize3D, listMin, listMax])
    (by simp)).2

/-! ### C7: entity identity across analogy edits -/

/-- All scene-object identifiers owned by an `AnalogyState` are at least
`n` (i.e. were allocated at or after counter value `n`). -/
def stateIdsGE (st : AnalogyState) (n : Nat) : Prop :=
  (∀ id, st.fromToArrow = some id → n ≤ id) ∧
  (∀ id, st.applyArrow = some id → n ≤ id) ∧
  (∀ id, st.questionMark = some id → n ≤ id) ∧
  (∀ id ∈ st.spheres, n ≤ id)

lemma stateIdsGE_mono {st : AnalogyState} {m n : Nat} (h : m ≤ n)
    (hst : stateIdsGE st n) : stateIdsGE st m := by
  obtain ⟨h1, h2, h3, h4⟩ := hst
  exact ⟨fun i hi => le_trans h (h1 i hi), fun i hi => le_trans h (h2 i hi),
    fun i hi => le_trans h (h3 i hi), fun i hi => le_trans h (h4 i hi)⟩

lemma initAnalogyState_fresh (np : List ReducedEmbedding3D)
    (a : AnalogyConfig) (n : Nat) :
    n ≤ (initAnalogyState np a n).2 ∧ stateIdsGE (initAnalogyState np a n).1 n := by
  by_cases hc : findIndexJs a.from_ np = -1 ∨ findIndexJs a.to_ np = -1 ∨
      findIndexJs a.apply np = -1
  · simp only [initAnalogyState, if_pos hc]
    exact ⟨le_refl n, by simp [stateIdsGE]⟩
  · simp only [initAnalogyState, if_neg hc]
    refine ⟨by simp only [resultCount]; omega, ?_, ?_, ?_, ?_⟩
    · intro i hi
      simp only [Option.some.injEq] at hi
      omega
    · intro i hi
      simp only [Option.some.injEq] at hi
      omega
    · intro i hi
      simp only [Option.some.injEq] at hi
      simp [resultCount] at hi
      omega
    · intro i hi
      simp only [List.mem_map, List.mem_range, resultCount] at hi
      omega

lemma foldl_initAnalogies_fresh (np : List ReducedEmbedding3D)
    (analogies : List AnalogyConfig) :
    ∀ acc : List AnalogyState × Nat,
      acc.2 ≤ (analogies.foldl
        (fun acc analogy =>
          let (state, n) := initAnalogyState np analogy acc.2
          (acc.1 ++ [state], n)) acc).2 ∧
      ∀ st ∈ (analogies.foldl
        (fun acc analogy =>
          let (state, n) := initAnalogyState np analogy acc.2
          (acc.1 ++ [state], n)) acc).1,
        st ∈ acc.1 ∨ stateIdsGE st acc.2 := by
  induction analogies with
  | nil => exact fun acc => ⟨le_refl _, fun st hst => Or.inl hst⟩
  | cons a t ih =>
    intro acc
    rw [List.foldl_cons]
    have hstep := initAnalogyState_fresh np a acc.2
    have ihx := ih (acc.1 ++ [(initAnalogyState np a acc.2).1],
      (initAnalogyState np a acc.2).2)
    constructor
    · exact le_trans hstep.1 ihx.1
    · intro st hst
      rcases ihx.2 st hst with hmem | hge
      · rcases List.mem_append.mp hmem with h | h
        · exact Or.inl h
        · right
          rw [List.mem_singleton] at h
          exact h ▸ hstep.2
      · exact Or.inr (stateIdsGE_mono hstep.1 hge)

/-- Counterexample to claim C7: with two analogies over a five-token
point list, editing only the first config's `from` token makes the watch
handler rebuild everything; the untouched second config's from→to arrow
is entity `8` before the edit and the freshly allocated entity `24`
afterwards, so the scene entities of the unedited config are not the
same objects. -/
theorem reconciler_identity_counterexample :
    (((initializeAnalogies [⟨"a", "b", "c", "#111111"⟩, ⟨"a", "b", "d", "#222222"⟩]
        [⟨"a", 0, 0, 0⟩, ⟨"b", 1, 0, 0⟩, ⟨"c", 0, 1, 0⟩, ⟨"d", 0, 0, 1⟩, ⟨"e", 1, 1, 0⟩]
        0).1[1]?).map (·.fromToArrow) = some (some 8)) ∧
    (((onAnalogiesChanged
        (initializeAnalogies [⟨"a", "b", "c", "#111111"⟩, ⟨"a", "b", "d", "#222222"⟩]
          [⟨"a", 0, 0, 0⟩, ⟨"b", 1, 0, 0⟩, ⟨"c", 0, 1, 0⟩, ⟨"d", 0, 0, 1⟩, ⟨"e", 1, 1, 0⟩]
          0).1
        [⟨"e", "b", "c", "#111111"⟩, ⟨"a", "b", "d", "#222222"⟩]
        [⟨"a", 0, 0, 0⟩, ⟨"b", 1, 0, 0⟩, ⟨"c", 0, 1, 0⟩, ⟨"d", 0, 0, 1⟩, ⟨"e", 1, 1, 0⟩]
        (initializeAnalogies [⟨"a", "b", "c", "#111111"⟩, ⟨"a", "b", "d", "#222222"⟩]
          [⟨"a", 0, 0, 0⟩, ⟨"b", 1, 0, 0⟩, ⟨"c", 0, 1, 0⟩, ⟨"d", 0, 0, 1⟩, ⟨"e", 1, 1, 0⟩]
          0).2).1[1]?).map (·.fromToArrow) = some (some 24)) ∧
    some (some 24) ≠ some (some (8 : Nat)) := by
  refine ⟨?_, ?_, by simp⟩ <;>
    simp [initializeAnalogies, onAnalogiesChanged, cleanupAnalogies,
      initAnalogyState, findIndexJs, normalize3D, listMin, listMax,
      resultCount]

/-- Claim C7 as amended: an edit of any analogy config (the `analogies`
watch) first tears down the scene entities of every config and then
recreates all of them from fresh allocations — the result does not
depend on the previous entities at all, and every recreated entity's
identifier is at least the current allocation counter, hence distinct
from every previously allocated entity. -/
theorem analogies_watch_recreates_all_entities
    (analogyStates : List AnalogyState) (analogies : List AnalogyConfig)
    (points : List ReducedEmbedding3D) (nextId : Nat) :
    onAnalogiesChanged analogyStates analogies points nextId =
      initializeAnalogies analogies points nextId ∧
    ∀ st ∈ (initializeAnalogies analogies points nextId).1,
      stateIdsGE st nextId := by
  refine ⟨rfl, ?_⟩
  intro st hst
  have h := (foldl_initAnalogies_fresh (normalize3D points pointCloudScale)
    analogies ([], nextId)).2 st
  rcases h (by simpa [initializeAnalogies] using hst) with hmem | hge
  · cases hmem
  · exact hge

/-- Witness for the amended C7: the single degenerate state produced on
an empty point list carries no entity below the counter. -/
theorem analogies_watch_recreates_all_entities_witness :
    stateIdsGE ⟨-1, -1, -1, none, none, none, []⟩ 0 :=
  (analogies_watch_recreates_all_entities [] [⟨"a", "b", "c", "#111111"⟩] [] 0).2
    ⟨-1, -1, -1, none, none, none, []⟩
    (by simp [initializeAnalogies, initAnalogyState, findIndexJs, normalize3D])

/-- Claim C1: when all three tokens are present, the computed analogy
target is `apply + (to − from)` coordinate by coordinate — in full mode
the target embedding's entries are exactly `apply[i] + (to[i] − from[i])`
and the result is the nearest-token search around it, and in reduced mode
the question-mark marker position equals the apply point's current
position plus the vector from the from point's current position to the to
point's current position (the `normalize`/`multiplyScalar` detour cancels
exactly). -/
theorem analogy_target_vector_arithmetic :
    (∀ (originalEmbeddings : List TokenEmbedding) (analogy : AnalogyConfig)
        (fe te ae : TokenEmbedding),
      originalEmbeddings.find? (fun e => e.token = analogy.from_) = some fe →
      originalEmbeddings.find? (fun e => e.token = analogy.to_) = some te →
      originalEmbeddings.find? (fun e => e.token = analogy.apply) = some ae →
      computeFullEmbeddingAnalogy originalEmbeddings analogy =
        { from_ := analogy.from_
          to_ := analogy.to_
          apply := analogy.apply
          results := findNearestTokensFullEmbedding originalEmbeddings
            (analogyTargetEmbedding ae.embedding te.embedding fe.embedding)
            resultCount
          distances := []
          color := analogy.color } ∧
      ∀ i : Nat, i < ae.embedding.length →
        (analogyTargetEmbedding ae.embedding te.embedding fe.embedding)[i]? =
          some (ae.embedding.getD i 0 +
            (te.embedding.getD i 0 - fe.embedding.getD i 0))) ∧
    ∀ applyPos toPos fromPos : Vec3,
      questionMarkTipPos applyPos toPos fromPos =
        (applyPos.add (toPos.sub fromPos)).toR := by
  constructor
  · intro originalEmbeddings analogy fe te ae hfe hte hae
    constructor
    · simp only [computeFullEmbeddingAnalogy, hfe, hte, hae]
    · intro i hi
      simp only [analogyTargetEmbedding, List.getElem?_map,
        List.getElem?_range hi, Option.map_some']
  · intro applyPos toPos fromPos
    by_cases hL : (toPos.sub fromPos).lengthR = 0
    · have hn : Vec3.normSq (toPos.sub fromPos) = 0 := by
        have h1 : ((Vec3.normSq (toPos.sub fromPos) : ℚ) : ℝ) ≤ 0 :=
          Real.sqrt_eq_zero'.mp hL
        have h2 : 0 ≤ Vec3.normSq (toPos.sub fromPos) := by
          simp only [Vec3.normSq]
          positivity
        exact_mod_cast le_antisymm (by exact_mod_cast h1) h2
      simp only [Vec3.normSq] at hn
      have hx : (toPos.sub fromPos).x = 0 := by
        nlinarith [sq_nonneg (toPos.sub fromPos).x, sq_nonneg (toPos.sub fromPos).y,
          sq_nonneg (toPos.sub fromPos).z]
      have hy : (toPos.sub fromPos).y = 0 := by
        nlinarith [sq_nonneg (toPos.sub fromPos).x, sq_nonneg (toPos.sub fromPos).y,
          sq_nonneg (toPos.sub fromPos).z]
      have hz : (toPos.sub fromPos).z = 0 := by
        nlinarith [sq_nonneg (toPos.sub fromPos).x, sq_nonneg (toPos.sub fromPos).y,
          sq_nonneg (toPos.sub fromPos).z]
      simp only [questionMarkTipPos, Vec3R.add, Vec3R.smul, Vec3.toR, Vec3.add,
        hL, if_pos, Vec3R.mk.injEq]
      rw [hx, hy, hz]
      norm_num
    · simp only [questionMarkTipPos, Vec3R.add, Vec3R.smul, Vec3.toR, Vec3.add,
        if_neg hL, Vec3R.mk.injEq]
      refine ⟨?_, ?_, ?_⟩ <;>
        · push_cast
          field_simp

/-- Witness for C1: the synthetic two-point instance `to − from = (1,0,0)`,
`apply = (5,5,5)` gives the tip exactly `(6,5,5)`; and on concrete
embeddings the full-space target coordinate is `apply + (to − from)`. -/
theorem analogy_target_vector_arithmetic_witness :
    questionMarkTipPos ⟨5, 5, 5⟩ ⟨1, 0, 0⟩ ⟨0, 0, 0⟩ = ⟨(6 : ℝ), 5, 5⟩ ∧
    (analogyTargetEmbedding [(0 : ℚ), 0, 0] [1, 0, 0] [0, 0, 0])[0]? =
      some 1 := by
  constructor
  · rw [analogy_target_vector_arithmetic.2 ⟨5, 5, 5⟩ ⟨1, 0, 0⟩ ⟨0, 0, 0⟩]
    simp only [Vec3.add, Vec3.sub, Vec3.toR, Vec3R.mk.injEq]
    norm_num
  · have h :=
      (analogy_target_vector_arithmetic.1
        [⟨"a", [0, 0, 0]⟩, ⟨"b", [1, 0, 0]⟩] ⟨"a", "b", "a", "#ffffff"⟩
        ⟨"a", [0, 0, 0]⟩ ⟨"b", [1, 0, 0]⟩ ⟨"a", [0, 0, 0]⟩ rfl rfl rfl).2 0
        (by norm_num)
    simpa using h

/-- Claim C3: if any of the three configured tokens is absent (from the
embedding store in full mode, from the point list in reduced mode), the
solver returns the degenerate result — a single `"?"` placeholder token
and no distances — and, being a total function, throws nothing. -/
theorem invalid_token_degenerate_result :
    (∀ (originalEmbeddings : List TokenEmbedding) (analogy : AnalogyConfig),
      ((∀ e ∈ originalEmbeddings, e.token ≠ analogy.from_) ∨
        (∀ e ∈ originalEmbeddings, e.token ≠ analogy.to_) ∨
        (∀ e ∈ originalEmbeddings, e.token ≠ analogy.apply)) →
      computeFullEmbeddingAnalogy originalEmbeddings analogy =
        { from_ := analogy.from_
          to_ := analogy.to_
          apply := analogy.apply
          results := ["?"]
          distances := []
          color := analogy.color }) ∧
    ∀ (pointStates : List PointState) (points : List ReducedEmbedding3D)
        (analogy : AnalogyConfig),
      ((∀ p ∈ points, p.token ≠ analogy.from_) ∨
        (∀ p ∈ points, p.token ≠ analogy.to_) ∨
        (∀ p ∈ points, p.token ≠ analogy.apply)) →
      animateAnalogyResult pointStates points analogy =
        some
          { from_ := analogy.from_
            to_ := analogy.to_
            apply := analogy.apply
            results := ["?"]
            distances := []
            color := analogy.color } := by
  constructor
  · intro originalEmbeddings analogy h
    rcases h with h | h | h
    · have hfe : originalEmbeddings.find? (fun e => e.token = analogy.from_) = none :=
        List.find?_eq_none.mpr fun e he => by simpa using h e he
      simp only [computeFullEmbeddingAnalogy, hfe]
    · have hte : originalEmbeddings.find? (fun e => e.token = analogy.to_) = none :=
        List.find?_eq_none.mpr fun e he => by simpa using h e he
      cases hfe : originalEmbeddings.find? (fun e => e.token = analogy.from_) <;>
        simp only [computeFullEmbeddingAnalogy, hfe, hte]
    · have hae : originalEmbeddings.find? (fun e => e.token = analogy.apply) = none :=
        List.find?_eq_none.mpr fun e he => by simpa using h e he
      cases hfe : originalEmbeddings.find? (fun e => e.token = analogy.from_) <;>
        cases hte : originalEmbeddings.find? (fun e => e.token = analogy.to_) <;>
          simp only [computeFullEmbeddingAnalogy, hfe, hte, hae]
  · intro pointStates points analogy h
    have hidx : ∀ token : String, (∀ p ∈ points, p.token ≠ token) →
        findIndexJs token (normalize3D points pointCloudScale) = -1 := by
      intro token htoken
      unfold findIndexJs
      rw [List.findIdx?_eq_none_iff.mpr]
      intro q hq
      have hmem : q.token ∈ points.map (·.token) := by
        rw [← normalize3D_map_token points pointCloudScale]
        exact List.mem_map_of_mem _ hq
      obtain ⟨p, hp, hpq⟩ := List.mem_map.mp hmem
      simpa using hpq ▸ htoken p hp
    rcases h with h | h | h
    · simp only [animateAnalogyResult]
      rw [if_pos (Or.inl (hidx analogy.from_ h))]
    · simp only [animateAnalogyResult]
      rw [if_pos (Or.inr (Or.inl (hidx analogy.to_ h)))]
    · simp only [animateAnalogyResult]
      rw [if_pos (Or.inr (Or.inr (hidx analogy.apply h)))]

/-- Witness for C3, the spec's own example shape: `from = "xyzzy"` is in
neither the two-token store nor the point list, and both solvers return
the `"?"` placeholder. -/
theorem invalid_token_degenerate_result_witness :
    computeFullEmbeddingAnalogy [⟨"a", [1]⟩, ⟨"b", [2]⟩]
        ⟨"xyzzy", "a", "b", "#000000"⟩ =
      { from_ := "xyzzy", to_ := "a", apply := "b", results := ["?"],
        distances := [], color := "#000000" } ∧
    animateAnalogyResult [] [⟨"a", 1, 0, 0⟩, ⟨"b", 0, 1, 0⟩]
        ⟨"xyzzy", "a", "b", "#000000"⟩ =
      some { from_ := "xyzzy", to_ := "a", apply := "b", results := ["?"],
             distances := [], color := "#000000" } :=
  ⟨invalid_token_degenerate_result.1 [⟨"a", [1]⟩, ⟨"b", [2]⟩]
      ⟨"xyzzy", "a", "b", "#000000"⟩ (Or.inl (by decide)),
    invalid_token_degenerate_result.2 [] [⟨"a", 1, 0, 0⟩, ⟨"b", 0, 1, 0⟩]
      ⟨"xyzzy", "a", "b", "#000000"⟩ (Or.inl (by decide))⟩

/-! ### C2: nearest-neighbor correctness -/

lemma sortByDistance_sorted (l : List TokenDistance) :
    (sortByDistance l).Pairwise (fun a b => a.distance ≤ b.distance) := by
  have h := @List.sorted_mergeSort TokenDistance
    (fun a b : TokenDistance => decide (a.distance ≤ b.distance))
    (fun a b c hab hbc => by
      simp only [decide_eq_true_eq] at *
      exact le_trans hab hbc)
    (fun a b => by
      simp only [Bool.or_eq_true, decide_eq_true_eq]
      exact le_total a.distance b.distance)
    l
  exact h.imp fun hab => by simpa using hab

lemma sortByDistance_perm (l : List TokenDistance) :
    (sortByDistance l).Perm l :=
  List.mergeSort_perm l _

/-- The `sort` + `take count` combination used by both nearest-token
helpers returns an ascending k-minimal selection: a sorted prefix whose
elements, together with the dropped suffix, permute the input, with
every kept distance at most every dropped one, and of length
`min count l.length`. -/
lemma take_sortByDistance_spec (l : List TokenDistance) (count : Nat) :
    ((sortByDistance l).take count).Pairwise (fun a b => a.distance ≤ b.distance) ∧
    (((sortByDistance l).take count) ++ ((sortByDistance l).drop count)).Perm l ∧
    (∀ a ∈ (sortByDistance l).take count, ∀ b ∈ (sortByDistance l).drop count,
      a.distance ≤ b.distance) ∧
    ((sortByDistance l).take count).length = min count l.length := by
  have hs := sortByDistance_sorted l
  have hp := sortByDistance_perm l
  have hsplit := List.take_append_drop count (sortByDistance l)
  refine ⟨?_, ?_, ?_, ?_⟩
  · exact List.Pairwise.sublist (List.take_sublist count _) hs
  · rw [hsplit]
    exact hp
  · have := hs
    rw [← hsplit] at this
    exact (List.pairwise_append.mp this).2.2
  · rw [List.length_take, hp.length_eq]

/-- Claim C2: both nearest-neighbor searches return exactly the `count`
closest tokens in ascending Euclidean-distance order (all of them when
fewer exist), matching the brute-force characterization: the result is
the `take count` of an ascending sort of the full distance list, the
kept and dropped parts permute that list, and every kept distance is at
most every dropped one.  In reduced space the distances are taken to the
states' current animated positions; in full space to the stored
embedding vectors. -/
theorem nearest_neighbor_k_smallest (pointStates : List PointState)
    (points : List ReducedEmbedding3D) (position : Vec3R) (count : Nat)
    (originalEmbeddings : List TokenEmbedding) (targetEmbedding : List ℚ) :
    (findNearestTokensWithDistances pointStates points position count =
      (sortByDistance (pointStates.mapIdx fun i state =>
        ⟨tokenAt points i, distToR position state.current⟩)).take count) ∧
    ((findNearestTokensWithDistances pointStates points position count).Pairwise
      (fun a b => a.distance ≤ b.distance)) ∧
    ((findNearestTokensWithDistances pointStates points position count ++
      (sortByDistance (pointStates.mapIdx fun i state =>
        ⟨tokenAt points i, distToR position state.current⟩)).drop count).Perm
      (pointStates.mapIdx fun i state =>
        ⟨tokenAt points i, distToR position state.current⟩)) ∧
    (∀ a ∈ findNearestTokensWithDistances pointStates points position count,
      ∀ b ∈ (sortByDistance (pointStates.mapIdx fun i state =>
        ⟨tokenAt points i, distToR position state.current⟩)).drop count,
      a.distance ≤ b.distance) ∧
    (findNearestTokensWithDistances pointStates points position count).length =
      min count pointStates.length ∧
    (findNearestTokensFullEmbedding originalEmbeddings targetEmbedding count =
      ((sortByDistance
        (fullEmbeddingDistances originalEmbeddings targetEmbedding)).take
          count).map (·.token)) ∧
    ((sortByDistance
      (fullEmbeddingDistances originalEmbeddings targetEmbedding)).take
        count).Pairwise (fun a b => a.distance ≤ b.distance) ∧
    (((sortByDistance
        (fullEmbeddingDistances originalEmbeddings targetEmbedding)).take count ++
      (sortByDistance
        (fullEmbeddingDistances originalEmbeddings targetEmbedding)).drop
          count).Perm
      (fullEmbeddingDistances originalEmbeddings targetEmbedding)) ∧
    (∀ a ∈ (sortByDistance
        (fullEmbeddingDistances originalEmbeddings targetEmbedding)).take count,
      ∀ b ∈ (sortByDistance
        (fullEmbeddingDistances originalEmbeddings targetEmbedding)).drop count,
      a.distance ≤ b.distance) ∧
    (findNearestTokensFullEmbedding originalEmbeddings targetEmbedding
      count).length = min count originalEmbeddings.length := by
  obtain ⟨r1, r2, r3, r4⟩ := take_sortByDistance_spec
    (pointStates.mapIdx fun i state =>
      ⟨tokenAt points i, distToR position state.current⟩) count
  obtain ⟨f1, f2, f3, f4⟩ := take_sortByDistance_spec
    (fullEmbeddingDistances originalEmbeddings targetEmbedding) count
  have hred : findNearestTokensWithDistances pointStates points position count =
      (sortByDistance (pointStates.mapIdx fun i state =>
        ⟨tokenAt points i, distToR position state.current⟩)).take count := rfl
  have hfull : findNearestTokensFullEmbedding originalEmbeddings targetEmbedding
      count =
      ((sortByDistance
        (fullEmbeddingDistances originalEmbeddings targetEmbedding)).take
          count).map (·.token) := rfl
  refine ⟨hred, ?_, ?_, ?_, ?_, hfull, f1, f2, f3, ?_⟩
  · rw [hred]
    exact r1
  · rw [hred]
    exact r2
  · rw [hred]
    exact r3
  · rw [hred, r4, List.length_mapIdx]
  · rw [hfull, List.length_map, f4]
    simp [fullEmbeddingDistances]

/-! ### C9: convergence of the spring-damper iteration

With `k = 120`, `c = 12`, `dt = 1/60` one tick maps the per-axis error
`e = current − target` and velocity `v` to `e' = (29/30)e + (1/75)v`,
`v' = (4/5)v − 2e`.  The quadratic form `L(e,v) = 600e² + 50ev + 4v²` is
positive definite and satisfies `L(e',v') = (4/5)·L(e,v)` exactly, which
yields a geometric envelope for `|current − target|` and `|velocity|`. -/

/-- Per-axis displacement from the target. -/
def errX (s : PointState) : ℚ := s.current.x - s.target.x

/-- Per-axis displacement from the target. -/
def errY (s : PointState) : ℚ := s.current.y - s.target.y

/-- Per-axis displacement from the target. -/
def errZ (s : PointState) : ℚ := s.current.z - s.target.z

/-- Lyapunov function of the one-axis discrete spring-damper. -/
def lyapunov (e v : ℚ) : ℚ := 600 * e ^ 2 + 50 * e * v + 4 * v ^ 2

/-- Total Lyapunov value of a state over the three axes. -/
def lyapunovTotal (s : PointState) : ℚ :=
  lyapunov (errX s) s.velocity.x + lyapunov (errY s) s.velocity.y +
    lyapunov (errZ s) s.velocity.z

lemma lyapunov_nonneg (e v : ℚ) : 0 ≤ lyapunov e v := by
  unfold lyapunov
  nlinarith [sq_nonneg (10 * e + v), sq_nonneg e, sq_nonneg v]

lemma sq_le_lyapunov (e v : ℚ) : 350 * e ^ 2 ≤ lyapunov e v := by
  unfold lyapunov
  nlinarith [sq_nonneg (10 * e + v), sq_nonneg v]

lemma vsq_le_lyapunov (e v : ℚ) : 3 / 2 * v ^ 2 ≤ lyapunov e v := by
  unfold lyapunov
  nlinarith [sq_nonneg (24 * e + v), sq_nonneg v]

lemma lyapunov_step (e v : ℚ) :
    lyapunov (29 / 30 * e + 1 / 75 * v) (4 / 5 * v - 2 * e) =
      4 / 5 * lyapunov e v := by
  unfold lyapunov
  ring

lemma step_target (t : PointState) :
    (updateSpringPhysics t).target = t.target := rfl

lemma iterate_target (s : PointState) (n : Nat) :
    (updateSpringPhysics^[n] s).target = s.target := by
  induction n with
  | zero => rfl
  | succ n ih => rw [Function.iterate_succ_apply', step_target, ih]

lemma step_err_vel_x (t : PointState) :
    errX (updateSpringPhysics t) = 29 / 30 * errX t + 1 / 75 * t.velocity.x ∧
    (updateSpringPhysics t).velocity.x = 4 / 5 * t.velocity.x - 2 * errX t := by
  constructor <;>
    · simp only [errX, updateSpringPhysics, Vec3.sub, Vec3.add, Vec3.smul,
        springK, damping, dt]
      ring

lemma step_err_vel_y (t : PointState) :
    errY (updateSpringPhysics t) = 29 / 30 * errY t + 1 / 75 * t.velocity.y ∧
    (updateSpringPhysics t).velocity.y = 4 / 5 * t.velocity.y - 2 * errY t := by
  constructor <;>
    · simp only [errY, updateSpringPhysics, Vec3.sub, Vec3.add, Vec3.smul,
        springK, damping, dt]
      ring

lemma step_err_vel_z (t : PointState) :
    errZ (updateSpringPhysics t) = 29 / 30 * errZ t + 1 / 75 * t.velocity.z ∧
    (updateSpringPhysics t).velocity.z = 4 / 5 * t.velocity.z - 2 * errZ t := by
  constructor <;>
    · simp only [errZ, updateSpringPhysics, Vec3.sub, Vec3.add, Vec3.smul,
        springK, damping, dt]
      ring

lemma lyapunov_iterate_x (s : PointState) (n : Nat) :
    lyapunov (errX (updateSpringPhysics^[n] s))
        (updateSpringPhysics^[n] s).velocity.x =
      (4 / 5) ^ n * lyapunov (errX s) s.velocity.x := by
  induction n with
  | zero => simp
  | succ n ih =>
    rw [Function.iterate_succ_apply', (step_err_vel_x _).1, (step_err_vel_x _).2,
      lyapunov_step, ih]
    ring

lemma lyapunov_iterate_y (s : PointState) (n : Nat) :
    lyapunov (errY (updateSpringPhysics^[n] s))
        (updateSpringPhysics^[n] s).velocity.y =
      (4 / 5) ^ n * lyapunov (errY s) s.velocity.y := by
  induction n with
  | zero => simp
  | succ n ih =>
    rw [Function.iterate_succ_apply', (step_err_vel_y _).1, (step_err_vel_y _).2,
      lyapunov_step, ih]
    ring

lemma lyapunov_iterate_z (s : PointState) (n : Nat) :
    lyapunov (errZ (updateSpringPhysics^[n] s))
        (updateSpringPhysics^[n] s).velocity.z =
      (4 / 5) ^ n * lyapunov (errZ s) s.velocity.z := by
  induction n with
  | zero => simp
  | succ n ih =>
    rw [Function.iterate_succ_apply', (step_err_vel_z _).1, (step_err_vel_z _).2,
      lyapunov_step, ih]
    ring

lemma lyapunovTotal_nonneg (s : PointState) : 0 ≤ lyapunovTotal s :=
  add_nonneg (add_nonneg (lyapunov_nonneg _ _) (lyapunov_nonneg _ _))
    (lyapunov_nonneg _ _)

lemma distSq_iterate (s : PointState) (n : Nat) :
    distSq (updateSpringPhysics^[n] s).current s.target =
      errX (updateSpringPhysics^[n] s) ^ 2 +
      errY (updateSpringPhysics^[n] s) ^ 2 +
      errZ (updateSpringPhysics^[n] s) ^ 2 := by
  rw [← iterate_target s n]
  simp [distSq, Vec3.normSq, Vec3.sub, errX, errY, errZ]

lemma distSq_le_geometric (s : PointState) (n : Nat) :
    distSq (updateSpringPhysics^[n] s).current s.target ≤
      1 / 350 * lyapunovTotal s * (4 / 5) ^ n := by
  have hx : 350 * errX (updateSpringPhysics^[n] s) ^ 2 ≤
      (4 / 5) ^ n * lyapunov (errX s) s.velocity.x := by
    rw [← lyapunov_iterate_x]
    exact sq_le_lyapunov _ _
  have hy : 350 * errY (updateSpringPhysics^[n] s) ^ 2 ≤
      (4 / 5) ^ n * lyapunov (errY s) s.velocity.y := by
    rw [← lyapunov_iterate_y]
    exact sq_le_lyapunov _ _
  have hz : 350 * errZ (updateSpringPhysics^[n] s) ^ 2 ≤
      (4 / 5) ^ n * lyapunov (errZ s) s.velocity.z := by
    rw [← lyapunov_iterate_z]
    exact sq_le_lyapunov _ _
  rw [distSq_iterate]
  unfold lyapunovTotal
  linarith

lemma velSq_le_geometric (s : PointState) (n : Nat) :
    Vec3.normSq (updateSpringPhysics^[n] s).velocity ≤
      2 / 3 * lyapunovTotal s * (4 / 5) ^ n := by
  have hx : 3 / 2 * (updateSpringPhysics^[n] s).velocity.x ^ 2 ≤
      (4 / 5) ^ n * lyapunov (errX s) s.velocity.x := by
    rw [← lyapunov_iterate_x]
    exact vsq_le_lyapunov _ _
  have hy : 3 / 2 * (updateSpringPhysics^[n] s).velocity.y ^ 2 ≤
      (4 / 5) ^ n * lyapunov (errY s) s.velocity.y := by
    rw [← lyapunov_iterate_y]
    exact vsq_le_lyapunov _ _
  have hz : 3 / 2 * (updateSpringPhysics^[n] s).velocity.z ^ 2 ≤
      (4 / 5) ^ n * lyapunov (errZ s) s.velocity.z := by
    rw [← lyapunov_iterate_z]
    exact vsq_le_lyapunov _ _
  unfold Vec3.normSq
  unfold lyapunovTotal
  linarith

/-- Bounding a square root of a geometrically decaying rational by a
real geometric sequence with ratio `9/10 > √(4/5)`. -/
lemma sqrt_le_geometric (A q : ℚ) (hA : 0 ≤ A) (n : ℕ)
    (h : q ≤ A * (4 / 5) ^ n) :
    Real.sqrt (q : ℝ) ≤ Real.sqrt (A : ℝ) * (9 / 10) ^ n := by
  have hAR : (0 : ℝ) ≤ (A : ℝ) := by exact_mod_cast hA
  have h1a : (q : ℝ) ≤ ((A * (4 / 5) ^ n : ℚ) : ℝ) := by exact_mod_cast h
  have h1 : (q : ℝ) ≤ (A : ℝ) * (4 / 5 : ℝ) ^ n := by
    push_cast at h1a
    exact h1a
  have h2 : (q : ℝ) ≤ (A : ℝ) * (81 / 100 : ℝ) ^ n :=
    le_trans h1 (mul_le_mul_of_nonneg_left
      (pow_le_pow_left₀ (by norm_num) (by norm_num) n) hAR)
  have h3 : ((81 / 100 : ℝ)) ^ n = ((9 / 10 : ℝ) ^ n) ^ 2 := by
    calc ((81 / 100 : ℝ)) ^ n = (((9 / 10 : ℝ)) ^ 2) ^ n := by norm_num
      _ = (9 / 10 : ℝ) ^ (2 * n) := (pow_mul _ 2 n).symm
      _ = ((9 / 10 : ℝ) ^ n) ^ 2 := by rw [Nat.mul_comm, pow_mul]
  calc Real.sqrt (q : ℝ) ≤ Real.sqrt ((A : ℝ) * (81 / 100 : ℝ) ^ n) :=
        Real.sqrt_le_sqrt h2
    _ = Real.sqrt (A : ℝ) * Real.sqrt ((81 / 100 : ℝ) ^ n) :=
        Real.sqrt_mul hAR _
    _ = Real.sqrt (A : ℝ) * (9 / 10) ^ n := by
        rw [h3, Real.sqrt_sq (by positivity)]

lemma geometric_tendsto_zero (C : ℝ) :
    Filter.Tendsto (fun n : ℕ => C * (9 / 10 : ℝ) ^ n) Filter.atTop (nhds 0) := by
  have h0 := tendsto_pow_atTop_nhds_zero_of_lt_one
    (by norm_num : (0 : ℝ) ≤ 9 / 10) (by norm_num : (9 / 10 : ℝ) < 1)
  have h1 := h0.const_mul C
  simpa using h1

/-- Claim C9: iterating the physics step with a fixed target drives the
distance to the target and the velocity magnitude to `0`, and the
distance is bounded for all time by a monotonically decreasing envelope
that itself tends to `0` (so in particular every local peak of
`|current − target|` sits under this decreasing geometric envelope). -/
theorem spring_physics_convergence (s : PointState) :
    Filter.Tendsto (fun n => distR (updateSpringPhysics^[n] s).current s.target)
      Filter.atTop (nhds 0) ∧
    Filter.Tendsto (fun n => Vec3.lengthR (updateSpringPhysics^[n] s).velocity)
      Filter.atTop (nhds 0) ∧
    ∃ env : ℕ → ℝ, Antitone env ∧ Filter.Tendsto env Filter.atTop (nhds 0) ∧
      ∀ n, distR (updateSpringPhysics^[n] s).current s.target ≤ env n := by
  have hA1 : (0 : ℚ) ≤ 1 / 350 * lyapunovTotal s := by
    have := lyapunovTotal_nonneg s
    linarith
  have hA2 : (0 : ℚ) ≤ 2 / 3 * lyapunovTotal s := by
    have := lyapunovTotal_nonneg s
    linarith
  have hbound : ∀ n,
      distR (updateSpringPhysics^[n] s).current s.target ≤
        Real.sqrt ((1 / 350 * lyapunovTotal s : ℚ) : ℝ) * (9 / 10) ^ n := by
    intro n
    simp only [distR]
    exact sqrt_le_geometric _ _ hA1 n (distSq_le_geometric s n)
  have hvbound : ∀ n,
      Vec3.lengthR (updateSpringPhysics^[n] s).velocity ≤
        Real.sqrt ((2 / 3 * lyapunovTotal s : ℚ) : ℝ) * (9 / 10) ^ n := by
    intro n
    simp only [Vec3.lengthR]
    exact sqrt_le_geometric _ _ hA2 n (velSq_le_geometric s n)
  refine ⟨?_, ?_, ?_⟩
  · exact squeeze_zero (fun n => Real.sqrt_nonneg _) hbound
      (geometric_tendsto_zero _)
  · exact squeeze_zero (fun n => Real.sqrt_nonneg _) hvbound
      (geometric_tendsto_zero _)
  · refine ⟨fun n => Real.sqrt ((1 / 350 * lyapunovTotal s : ℚ) : ℝ) * (9 / 10) ^ n,
      ?_, geometric_tendsto_zero _, hbound⟩
    intro m n h
    exact mul_le_mul_of_nonneg_left
      (pow_le_pow_of_le_one (by norm_num) (by norm_num) h) (Real.sqrt_nonneg _)

end TokenViz
